import Mathlib

/-
Verification of the MindSpeak client-side audio capture pipeline.

Shallow embedding of:
  - `AudioRecorder` (frontend/src/App.tsx, exported utility class): microphone
    acquisition, chunked capture, blob assembly, cleanup;
  - the `Recording` page controller (frontend/src/pages/Recording.tsx):
    start/stop/tick state machine with auto-stop at MAX_DURATION and the
    minimum-duration check before upload;
  - the `AudioVisualizer` effect (frontend/src/components/AudioVisualizer.tsx).

Conventions of the embedding:
  - Time is wall-clock milliseconds (`Nat`); durations in seconds are exact
    rationals (the JS float arithmetic `(Date.now() - start) / 1000` compared
    against the small integer thresholds 5 and 120 agrees with exact rational
    arithmetic at every reachable comparison).
  - Browser callbacks become explicit state-transformer functions; the
    cooperative event loop is modelled by running those functions in the order
    the events fire, each running to completion (atomically).
  - A hardware `MediaStream` is an id plus the list of its track ids; stopping
    tracks is logged in `RecorderWorld.stoppedTracks` so that release,
    double-release and leaks are observable.
  - Byte payloads (`Blob` contents) are `List Nat`; a `Blob` built from a list
    of chunks has as byte content the concatenation (`List.flatten`) of the
    chunks' contents.
-/

namespace MindSpeak

/-- A hardware media stream handle: an identifier and its track ids. -/
structure MediaStream where
  id : Nat
  tracks : List Nat
deriving DecidableEq

/-- The states a browser `MediaRecorder` can be in. -/
inductive RecState where
  | recording
  | inactive
  | paused
deriving DecidableEq

/-- A `MediaRecorder` handle: the negotiated MIME type and its current state. -/
structure MediaRecorder where
  mimeType : String
  state : RecState
deriving DecidableEq

/-- The private fields of the `AudioRecorder` class (App.tsx).
`maxDuration` is stored in milliseconds, as in the constructor. -/
structure AudioRecorder where
  mediaRecorder : Option MediaRecorder
  audioChunks : List (List Nat)
  stream : Option MediaStream
  startTime : Option Nat
  maxDuration : Nat
deriving DecidableEq

/-- `new AudioRecorder(maxDuration)`: all handles null, `maxDuration`
converted from seconds to milliseconds. -/
def AudioRecorder.init (maxDurationSecs : Nat) : AudioRecorder :=
  { mediaRecorder := none
    audioChunks := []
    stream := none
    startTime := none
    maxDuration := maxDurationSecs * 1000 }

/-- An `AudioRecorder` together with the log of hardware track ids on which
`track.stop()` has been called (one entry per call, so duplicate release is
observable). -/
structure RecorderWorld where
  recorder : AudioRecorder
  stoppedTracks : List Nat
deriving DecidableEq

/-- `AudioRecorder.cleanup` (App.tsx): if a stream is held, stop each of its
tracks and drop the handle; null the recorder, clear the chunk buffer and the
start timestamp. -/
def cleanup (w : RecorderWorld) : RecorderWorld :=
  let stopped :=
    match w.recorder.stream with
    | some s => w.stoppedTracks ++ s.tracks
    | none => w.stoppedTracks
  { recorder :=
      { w.recorder with
        mediaRecorder := none
        audioChunks := []
        stream := none
        startTime := none }
    stoppedTracks := stopped }

/-- The ranked MIME-type preference list of
`AudioRecorder.getSupportedMimeType` (App.tsx). -/
def mimeTypeList : List String :=
  ["audio/webm;codecs=opus", "audio/webm", "audio/ogg;codecs=opus", "audio/mp4"]

/-- `AudioRecorder.getSupportedMimeType` (App.tsx): the first entry of the
ranked list that the environment supports, else the generic default.
The environment's `MediaRecorder.isTypeSupported` is the parameter. -/
def getSupportedMimeType (isTypeSupported : String → Bool) : String :=
  match mimeTypeList.find? isTypeSupported with
  | some t => t
  | none => "audio/webm"

/-- `AudioRecorder.startRecording` (App.tsx). The device-acquisition outcome
(`getUserMedia`) is the parameter `acquire`; `now` is `Date.now()` at the
assignment of `this.startTime`. On acquisition failure `this.stream` is never
assigned, so `cleanup` runs on the previous state and the error propagates
with the `Failed to access microphone: ` prefix. On success the fields are
overwritten with fresh handles and the recorder starts in the `recording`
state (`start(100)` is called immediately). -/
def startRecording (isTypeSupported : String → Bool)
    (acquire : Except String MediaStream) (now : Nat) (w : RecorderWorld) :
    Except String Unit × RecorderWorld :=
  match acquire with
  | .error msg => (.error ("Failed to access microphone: " ++ msg), cleanup w)
  | .ok s =>
      (.ok (),
        { w with
          recorder :=
            { w.recorder with
              stream := some s
              mediaRecorder :=
                some { mimeType := getSupportedMimeType isTypeSupported
                       state := RecState.recording }
              audioChunks := []
              startTime := some now } })

/-- The `ondataavailable` handler installed by `startRecording` (App.tsx):
append the chunk to the buffer, but only when `event.data.size > 0`. -/
def ondataavailable (w : RecorderWorld) (data : List Nat) : RecorderWorld :=
  if data.length > 0 then
    { w with
      recorder := { w.recorder with audioChunks := w.recorder.audioChunks ++ [data] } }
  else w

/-- The value `stopRecording` resolves with: the blob's byte content and MIME
tag, and the measured duration in seconds. -/
structure StopResult where
  audioBlobBytes : List Nat
  audioBlobType : String
  duration : ℚ
deriving DecidableEq

/-- `AudioRecorder.stopRecording` (App.tsx): reject with `No active
recording` when there is no recorder or it is inactive (state unchanged);
otherwise the `onstop` handler builds the blob from the buffered chunks,
computes the duration from `startTime` (0 if absent), runs `cleanup`, and
resolves. `now` is `Date.now()` inside `onstop`. -/
def stopRecording (now : Nat) (w : RecorderWorld) :
    Except String StopResult × RecorderWorld :=
  match w.recorder.mediaRecorder with
  | none => (.error "No active recording", w)
  | some mr =>
      if mr.state = RecState.inactive then (.error "No active recording", w)
      else
        let mt := if mr.mimeType = "" then "audio/webm" else mr.mimeType
        let dur : ℚ :=
          match w.recorder.startTime with
          | some t0 => ((now - t0 : Nat) : ℚ) / 1000
          | none => 0
        (.ok { audioBlobBytes := w.recorder.audioChunks.flatten
               audioBlobType := mt
               duration := dur },
          cleanup w)

/-- `AudioRecorder.getCurrentDuration` (App.tsx): 0 with no start timestamp,
else elapsed seconds since start. -/
def getCurrentDuration (r : AudioRecorder) (now : Nat) : ℚ :=
  match r.startTime with
  | none => 0
  | some t0 => ((now - t0 : Nat) : ℚ) / 1000

/-- `AudioRecorder.isRecording` (App.tsx). -/
def isRecording (r : AudioRecorder) : Bool :=
  match r.mediaRecorder with
  | some mr => mr.state = RecState.recording
  | none => false

/-- The worlds reachable from a fresh `AudioRecorder` by the class's own
operations, fired in any order the browser event loop can produce (each
handler running to completion). `ondataavailable` fires only while the
recorder is actively recording. -/
inductive Reach : RecorderWorld → Prop where
  | init (maxD : Nat) :
      Reach { recorder := AudioRecorder.init maxD, stoppedTracks := [] }
  | start (sup : String → Bool) (acq : Except String MediaStream) (now : Nat)
      (w : RecorderWorld) : Reach w → Reach (startRecording sup acq now w).2
  | data (w : RecorderWorld) (d : List Nat) : Reach w →
      isRecording w.recorder = true → Reach (ondataavailable w d)
  | stop (now : Nat) (w : RecorderWorld) : Reach w →
      Reach (stopRecording now w).2

/-- Invariant of reachable recorder worlds: a held `MediaRecorder` is always
in the `recording` state, and when no recorder is held the stream, chunk
buffer and start timestamp are already cleared. -/
def RecInv (w : RecorderWorld) : Prop :=
  (∀ mr, w.recorder.mediaRecorder = some mr → mr.state = RecState.recording) ∧
  (w.recorder.mediaRecorder = none →
    w.recorder.stream = none ∧ w.recorder.audioChunks = [] ∧ w.recorder.startTime = none)

theorem recInv_of_reach {w : RecorderWorld} (h : Reach w) : RecInv w := by
  induction h with
  | init maxD =>
      exact ⟨fun mr hmr => by simp [AudioRecorder.init] at hmr,
             fun _ => ⟨rfl, rfl, rfl⟩⟩
  | start sup acq now w _ ih =>
      cases acq with
      | error msg =>
          refine ⟨fun mr hmr => ?_, fun _ => ⟨rfl, rfl, rfl⟩⟩
          simp [startRecording, cleanup] at hmr
      | ok s =>
          refine ⟨fun mr hmr => ?_, fun hnone => ?_⟩
          · simp [startRecording] at hmr
            simp [← hmr]
          · simp [startRecording] at hnone
  | data w d _ hrec ih =>
      unfold ondataavailable
      split
      · refine ⟨fun mr hmr => ih.1 mr hmr, fun hnone => ?_⟩
        exfalso
        unfold isRecording at hrec
        cases hm : w.recorder.mediaRecorder with
        | none => rw [hm] at hrec; simp at hrec
        | some mr => simp at hnone; rw [hnone] at hm; cases hm
      · exact ih
  | stop now w _ ih =>
      unfold stopRecording
      cases hm : w.recorder.mediaRecorder with
      | none => simpa [hm] using ih
      | some mr =>
          have hst : mr.state = RecState.recording := ih.1 mr hm
          simp only [hm, hst]
          refine ⟨fun mr' hmr' => ?_, fun _ => ⟨rfl, rfl, rfl⟩⟩
          · simp [cleanup] at hmr'

/-- Folding the chunk-ready handler over a list of arriving chunks appends,
in arrival order, exactly the nonempty chunks to the buffer; no other field
changes. -/
theorem foldl_ondataavailable (chunks : List (List Nat)) (w : RecorderWorld) :
    chunks.foldl ondataavailable w =
      { w with
        recorder :=
          { w.recorder with
            audioChunks :=
              w.recorder.audioChunks ++ chunks.filter (fun c => c.length > 0) } } := by
  induction chunks generalizing w with
  | nil => simp
  | cons c l ih =>
      rw [List.foldl_cons, ih]
      unfold ondataavailable
      by_cases h : c.length > 0
      · simp [h, List.filter_cons]
      · simp [h, List.filter_cons]

/-- Dropping the empty chunks does not change the concatenated byte content. -/
theorem flatten_filter_pos (l : List (List Nat)) :
    (l.filter (fun c => c.length > 0)).flatten = l.flatten := by
  induction l with
  | nil => rfl
  | cons c t ih =>
      by_cases h : c.length > 0
      · simp [List.filter_cons, h, ih]
      · have hc : c = [] := List.length_eq_zero.mp (by omega)
        simp [List.filter_cons, h, hc, ih]

/-- C3: for every sequence of chunk-ready callbacks delivering chunks
C1, ..., Cn in that order after a successful start, the final blob produced
by `stopRecording` has byte content equal to the concatenation
C1 ++ ... ++ Cn. (Arrival order is the list order; the handler appends in
that order, so no reordering can occur regardless of when each callback
fires.) -/
theorem stop_blob_is_ordered_concat (sup : String → Bool) (s : MediaStream)
    (t0 now : Nat) (chunks : List (List Nat)) (w0 : RecorderWorld) :
    ((stopRecording now
        (chunks.foldl ondataavailable
          (startRecording sup (Except.ok s) t0 w0).2)).1).map
      (fun r => r.audioBlobBytes) = Except.ok chunks.flatten := by
  rw [foldl_ondataavailable]
  simp [startRecording, stopRecording, flatten_filter_pos, Except.map]

/-- C4: the encoding chosen at capture start is the first supported entry of
the ranked list, and the generic default `audio/webm` when none of the listed
entries is supported. -/
theorem getSupportedMimeType_ranked_first (sup : String → Bool) :
    getSupportedMimeType sup =
      if sup "audio/webm;codecs=opus" then "audio/webm;codecs=opus"
      else if sup "audio/webm" then "audio/webm"
      else if sup "audio/ogg;codecs=opus" then "audio/ogg;codecs=opus"
      else if sup "audio/mp4" then "audio/mp4"
      else "audio/webm" := by
  cases h1 : sup "audio/webm;codecs=opus" <;>
    cases h2 : sup "audio/webm" <;>
      cases h3 : sup "audio/ogg;codecs=opus" <;>
        cases h4 : sup "audio/mp4" <;>
          simp [getSupportedMimeType, mimeTypeList, List.find?, h1, h2, h3, h4]

/-- C7: `stopRecording` called with no recorder, or with an inactive
recorder, rejects with `No active recording` and does not resolve with a
blob. -/
theorem stop_no_active_rejects (w : RecorderWorld) (now : Nat)
    (h : w.recorder.mediaRecorder = none ∨
      ∃ mr, w.recorder.mediaRecorder = some mr ∧ mr.state = RecState.inactive) :
    (stopRecording now w).1 = Except.error "No active recording" := by
  rcases h with h | ⟨mr, hmr, hst⟩
  · simp [stopRecording, h]
  · simp [stopRecording, hmr, hst]

/-- Witness for C7: a fresh recorder (no capture in progress) rejects. -/
theorem stop_no_active_rejects_witness :
    ({ recorder := AudioRecorder.init 120,
       stoppedTracks := [] } : RecorderWorld).recorder.mediaRecorder = none ∧
    (stopRecording 0
      { recorder := AudioRecorder.init 120, stoppedTracks := [] }).1 =
      Except.error "No active recording" :=
  ⟨rfl, stop_no_active_rejects _ 0 (Or.inl rfl)⟩

/-- C8: the cleanup path is idempotent — running it twice from any recorder
state yields exactly the state of running it once, in particular the track
stop-log gains nothing from the second run (no track is released twice by the
pair of calls). `cleanup` is a total function, so neither call can raise. -/
theorem cleanup_idempotent (w : RecorderWorld) :
    cleanup (cleanup w) = cleanup w ∧
    (cleanup (cleanup w)).stoppedTracks = (cleanup w).stoppedTracks := by
  constructor
  · simp [cleanup]
  · simp [cleanup]

/-- C5: every `stopRecording` call on a reachable recorder world — whether it
resolves with a blob or rejects — completes with the stream handle released
and the chunk buffer empty, and every track of a held stream has been
stopped. (Reachable worlds are those produced by the class's own operations;
in every reachable rejecting state the stream was already released, so no
stop attempt ever leaves the device open.) -/
theorem stop_always_releases {w : RecorderWorld} (h : Reach w) (now : Nat) :
    (stopRecording now w).2.recorder.stream = none ∧
    (stopRecording now w).2.recorder.audioChunks = [] ∧
    ∀ s, w.recorder.stream = some s →
      ∀ tr ∈ s.tracks, tr ∈ (stopRecording now w).2.stoppedTracks := by
  have hinv := recInv_of_reach h
  cases hm : w.recorder.mediaRecorder with
  | none =>
      obtain ⟨hs, hc, _⟩ := hinv.2 hm
      refine ⟨?_, ?_, ?_⟩
      · simpa [stopRecording, hm] using hs
      · simpa [stopRecording, hm] using hc
      · intro s hs'
        rw [hs] at hs'
        cases hs'
  | some mr =>
      have hst : mr.state = RecState.recording := hinv.1 mr hm
      refine ⟨?_, ?_, ?_⟩
      · simp [stopRecording, hm, hst, cleanup]
      · simp [stopRecording, hm, hst, cleanup]
      · intro s hs' tr htr
        simp [stopRecording, hm, hst, cleanup, hs']
        exact Or.inr htr

/-- Witness for C5: start a capture on a concrete stream with two tracks,
then stop it; the stream handle is released, the buffer cleared, and both
tracks are stopped. -/
theorem stop_always_releases_witness :
    Reach (startRecording (fun _ => true)
        (Except.ok { id := 1, tracks := [7, 8] }) 0
        { recorder := AudioRecorder.init 120, stoppedTracks := [] }).2 ∧
    ((stopRecording 6000
        (startRecording (fun _ => true)
          (Except.ok { id := 1, tracks := [7, 8] }) 0
          { recorder := AudioRecorder.init 120,
            stoppedTracks := [] }).2).2.recorder.stream = none ∧
      (stopRecording 6000
        (startRecording (fun _ => true)
          (Except.ok { id := 1, tracks := [7, 8] }) 0
          { recorder := AudioRecorder.init 120,
            stoppedTracks := [] }).2).2.recorder.audioChunks = [] ∧
      ∀ s, (startRecording (fun _ => true)
          (Except.ok { id := 1, tracks := [7, 8] }) 0
          { recorder := AudioRecorder.init 120,
            stoppedTracks := [] }).2.recorder.stream = some s →
        ∀ tr ∈ s.tracks, tr ∈ (stopRecording 6000
          (startRecording (fun _ => true)
            (Except.ok { id := 1, tracks := [7, 8] }) 0
            { recorder := AudioRecorder.init 120,
              stoppedTracks := [] }).2).2.stoppedTracks) :=
  ⟨Reach.start _ _ _ _ (Reach.init 120),
   stop_always_releases (Reach.start _ _ _ _ (Reach.init 120)) 6000⟩

/-- C10: calling `startRecording` while a capture is already in progress
succeeds, overwrites the stored stream, recorder, chunk buffer and start
timestamp with fresh ones, and stops no track of the previously held stream,
which is therefore left open. -/
theorem start_while_recording_overwrites (sup : String → Bool)
    (sOld sNew : MediaStream) (now : Nat) (w : RecorderWorld)
    (hstream : w.recorder.stream = some sOld)
    (hrec : isRecording w.recorder = true)
    (hopen : ∀ tr ∈ sOld.tracks, tr ∉ w.stoppedTracks) :
    (startRecording sup (Except.ok sNew) now w).1 = Except.ok () ∧
    (startRecording sup (Except.ok sNew) now w).2.recorder.stream = some sNew ∧
    (startRecording sup (Except.ok sNew) now w).2.recorder.audioChunks = [] ∧
    (startRecording sup (Except.ok sNew) now w).2.recorder.startTime = some now ∧
    isRecording (startRecording sup (Except.ok sNew) now w).2.recorder = true ∧
    (startRecording sup (Except.ok sNew) now w).2.stoppedTracks =
      w.stoppedTracks ∧
    ∀ tr ∈ sOld.tracks,
      tr ∉ (startRecording sup (Except.ok sNew) now w).2.stoppedTracks := by
  refine ⟨rfl, rfl, rfl, rfl, ?_, rfl, ?_⟩
  · simp [startRecording, isRecording]
  · simpa [startRecording] using hopen

/-- A concrete recorder world with a capture in progress on stream 1
(track 7), two buffered bytes, started at time 0. -/
def midCaptureWorld : RecorderWorld :=
  { recorder :=
      { mediaRecorder :=
          some { mimeType := "audio/webm", state := RecState.recording }
        audioChunks := [[1, 2]]
        stream := some { id := 1, tracks := [7] }
        startTime := some 0
        maxDuration := 120000 }
    stoppedTracks := [] }

/-- Witness for C10: with a capture in progress on stream 1 (track 7),
starting again on stream 2 overwrites the fields and leaves track 7
unstopped. -/
theorem start_while_recording_overwrites_witness :
    midCaptureWorld.recorder.stream = some { id := 1, tracks := [7] } ∧
    isRecording midCaptureWorld.recorder = true ∧
    ((startRecording (fun _ => true) (Except.ok { id := 2, tracks := [8] }) 50
        midCaptureWorld).2.recorder.stream = some { id := 2, tracks := [8] } ∧
      ∀ tr ∈ ({ id := 1, tracks := [7] } : MediaStream).tracks,
        tr ∉ (startRecording (fun _ => true)
          (Except.ok { id := 2, tracks := [8] }) 50
          midCaptureWorld).2.stoppedTracks) := by
  refine ⟨rfl, rfl, ?_, ?_⟩
  · exact (start_while_recording_overwrites (fun _ => true)
      { id := 1, tracks := [7] } { id := 2, tracks := [8] } 50 midCaptureWorld
      rfl rfl (by simp [midCaptureWorld])).2.1
  · exact (start_while_recording_overwrites (fun _ => true)
      { id := 1, tracks := [7] } { id := 2, tracks := [8] } 50 midCaptureWorld
      rfl rfl (by simp [midCaptureWorld])).2.2.2.2.2.2

/-- The `RecordingStatus` union of the Recording page (Recording.tsx). -/
inductive Status where
  | idle
  | recording
  | uploading
  | processing
  | error
  | success
deriving DecidableEq

/-- `MAX_DURATION` (Recording.tsx): 2 minutes in seconds. -/
def MAX_DURATION : Nat := 120

/-- The state of the Recording page (Recording.tsx): its React state
(`status`, `duration`, `error`, `stream`), the interval-timer handle
(`timerActive`), the owned recorder world, plus observability fields: the
number of `entriesAPI.uploadAudio` invocations, the durations the recorder
resolved with, and the route navigated to. -/
structure Controller where
  status : Status
  duration : Nat
  errorMsg : String
  stream : Option MediaStream
  timerActive : Bool
  world : RecorderWorld
  uploadCalls : Nat
  captured : List ℚ
  navigatedTo : Option String
deriving DecidableEq

/-- The Recording page as mounted: status `idle`, no timer, a fresh
`AudioRecorder(MAX_DURATION)`. -/
def Controller.mount : Controller :=
  { status := Status.idle
    duration := 0
    errorMsg := ""
    stream := none
    timerActive := false
    world := { recorder := AudioRecorder.init MAX_DURATION, stoppedTracks := [] }
    uploadCalls := 0
    captured := []
    navigatedTo := none }

/-- The `startRecording` handler of the Recording page (Recording.tsx).
Returns the new controller state and the list of statuses set during the
call, in order. The handler clears the error, sets status `recording`, then
awaits `AudioRecorder.startRecording`; on success it stores the stream and
starts the 100 ms interval timer; on failure it sets a fixed
microphone-permission message and status `error`. -/
def ctrlStart (sup : String → Bool) (acquire : Except String MediaStream)
    (now : Nat) (c : Controller) : Controller × List Status :=
  let c1 := { c with errorMsg := "", status := Status.recording }
  match startRecording sup acquire now c1.world with
  | (Except.error _, w') =>
      ({ c1 with
          world := w'
          status := Status.error
          errorMsg := "Failed to access microphone. Please check your permissions." },
        [Status.recording, Status.error])
  | (Except.ok _, w') =>
      ({ c1 with world := w', stream := w'.recorder.stream, timerActive := true },
        [Status.recording])

/-- The `stopRecording` handler of the Recording page (Recording.tsx):
clear the interval timer, set status `uploading`, await the recorder's stop;
on a resolved stop of duration under 5 s set the too-short error without
uploading; otherwise upload (`uploadResult` is the gateway's response) and
either navigate to the processing page or set the upload-failure error. A
rejected stop is caught by the same `catch` and sets the upload-failure
error. -/
def ctrlStop (uploadResult : Except String Nat) (now : Nat) (c : Controller) :
    Controller :=
  let c1 := { c with timerActive := false, status := Status.uploading }
  match stopRecording now c1.world with
  | (Except.error _, w') =>
      { c1 with
        world := w'
        status := Status.error
        errorMsg := "Failed to upload recording. Please try again." }
  | (Except.ok r, w') =>
      let c2 := { c1 with
        world := w'
        stream := none
        captured := c1.captured ++ [r.duration] }
      if r.duration < 5 then
        { c2 with
          status := Status.error
          errorMsg := "Recording too short. Please record at least 5 seconds." }
      else
        let c3 := { c2 with uploadCalls := c2.uploadCalls + 1 }
        match uploadResult with
        | Except.ok entryId =>
            { c3 with
              navigatedTo := some ("/entries/" ++ toString entryId ++ "/process") }
        | Except.error _ =>
            { c3 with
              status := Status.error
              errorMsg := "Failed to upload recording. Please try again." }

/-- One firing of the 100 ms interval callback installed by `ctrlStart`
(Recording.tsx): if the timer has been cleared the callback no longer fires;
otherwise it re-reads the recorder's current duration, displays its floor,
and when the duration has reached `MAX_DURATION` invokes the stop handler. -/
def tickTimer (uploadResult : Except String Nat) (now : Nat) (c : Controller) :
    Controller :=
  if c.timerActive then
    let d := getCurrentDuration c.world.recorder now
    let c1 := { c with duration := Nat.floor d }
    if (MAX_DURATION : ℚ) ≤ d then ctrlStop uploadResult now c1 else c1
  else c

/-- Run the interval callback at each of the given firing times, in order. -/
def runTicks (uploadResult : Except String Nat) (c : Controller)
    (ticks : List Nat) : Controller :=
  ticks.foldl (fun acc t => tickTimer uploadResult t acc) c

theorem runTicks_nil (u : Except String Nat) (c : Controller) :
    runTicks u c [] = c := rfl

theorem runTicks_cons (u : Except String Nat) (t : Nat) (rest : List Nat)
    (c : Controller) :
    runTicks u c (t :: rest) = runTicks u (tickTimer u t c) rest := rfl

/-- Once the interval timer has been cleared the callback no longer fires. -/
theorem tickTimer_cleared (u : Except String Nat) (t : Nat) (c : Controller)
    (h : c.timerActive = false) : tickTimer u t c = c := by
  simp [tickTimer, h]

theorem runTicks_cleared (u : Except String Nat) (ticks : List Nat)
    (c : Controller) (h : c.timerActive = false) : runTicks u c ticks = c := by
  induction ticks with
  | nil => rfl
  | cons t rest ih => rw [runTicks_cons, tickTimer_cleared u t c h, ih]

/-- A tick strictly before the cap only refreshes the displayed duration. -/
theorem tickTimer_below_cap (u : Except String Nat) (t t0 : Nat)
    (c : Controller) (htimer : c.timerActive = true)
    (ht0 : c.world.recorder.startTime = some t0) (hlt : t - t0 < 120000) :
    tickTimer u t c =
      { c with duration := Nat.floor (getCurrentDuration c.world.recorder t) } := by
  have hd : getCurrentDuration c.world.recorder t < 120 := by
    rw [getCurrentDuration, ht0, div_lt_iff₀ (by norm_num : (0 : ℚ) < 1000)]
    have hq : ((t - t0 : Nat) : ℚ) < 120000 := by exact_mod_cast hlt
    linarith
  rw [tickTimer, htimer]
  simp only [if_true]
  rw [if_neg]
  simp [MAX_DURATION]
  linarith

/-- The first tick at or past the cap stops the capture: the recorder is
released, the timer is cleared, the measured duration is logged, and the
upload gateway is invoked exactly once. -/
theorem tickTimer_at_cap (u : Except String Nat) (t t0 : Nat) (mt : String)
    (c : Controller) (htimer : c.timerActive = true)
    (hmr : c.world.recorder.mediaRecorder =
      some { mimeType := mt, state := RecState.recording })
    (ht0 : c.world.recorder.startTime = some t0)
    (hcap : c.captured = []) (hup : c.uploadCalls = 0)
    (hge : 120000 ≤ t - t0) :
    (tickTimer u t c).captured = [((t - t0 : Nat) : ℚ) / 1000] ∧
    (tickTimer u t c).timerActive = false ∧
    (tickTimer u t c).world.recorder.mediaRecorder = none ∧
    (tickTimer u t c).uploadCalls = 1 := by
  have hd : (120 : ℚ) ≤ ((t - t0 : Nat) : ℚ) / 1000 := by
    rw [le_div_iff₀ (by norm_num : (0 : ℚ) < 1000)]
    have hq : (120000 : ℚ) ≤ ((t - t0 : Nat) : ℚ) := by exact_mod_cast hge
    linarith
  have hnotshort : ¬ (((t - t0 : Nat) : ℚ) / 1000 < 5) := by
    intro hcon
    linarith
  rw [tickTimer, htimer]
  simp only [if_true]
  rw [if_pos (by rw [getCurrentDuration, ht0]; simpa [MAX_DURATION] using hd)]
  simp only [ctrlStop, stopRecording, hmr, ht0, hcap, hup]
  rw [if_neg (by simp : ¬ (RecState.recording = RecState.inactive))]
  dsimp only
  rw [if_neg hnotshort]
  cases u with
  | ok entryId => simp [cleanup]
  | error e => simp [cleanup]

/-- While the interval timer runs from a successful start, the first tick at
which the elapsed duration reaches the cap stops the capture, and under the
100 ms tick cadence the measured duration lands in
[`MAX_DURATION`, `MAX_DURATION` + 0.1]. -/
theorem runTicks_auto_stop (u : Except String Nat) (mt : String) :
    ∀ (ticks : List Nat) (prev t0 : Nat) (c : Controller),
    c.timerActive = true →
    c.world.recorder.mediaRecorder =
      some { mimeType := mt, state := RecState.recording } →
    c.world.recorder.startTime = some t0 →
    c.captured = [] → c.uploadCalls = 0 →
    t0 ≤ prev → prev < t0 + 120000 →
    List.Chain (fun a b => a < b ∧ b ≤ a + 100) prev ticks →
    (∃ t ∈ ticks, t0 + 120000 ≤ t) →
    ∃ d : ℚ, (runTicks u c ticks).captured = [d] ∧
      (120 : ℚ) ≤ d ∧ d ≤ 120 + 1 / 10 ∧
      (runTicks u c ticks).timerActive = false ∧
      (runTicks u c ticks).world.recorder.mediaRecorder = none ∧
      (runTicks u c ticks).uploadCalls = 1 := by
  intro ticks
  induction ticks with
  | nil =>
      intro prev t0 c _ _ _ _ _ _ _ _ htrig
      simp at htrig
  | cons t rest ih =>
      intro prev t0 c htimer hmr ht0 hcap hup hple hpb hchain htrig
      obtain ⟨⟨hlt, hgap⟩, hchain'⟩ := List.chain_cons.mp hchain
      rw [runTicks_cons]
      by_cases hge : t0 + 120000 ≤ t
      · obtain ⟨hc1, hc2, hc3, hc4⟩ :=
          tickTimer_at_cap u t t0 mt c htimer hmr ht0 hcap hup (by omega)
        rw [runTicks_cleared u rest _ hc2]
        refine ⟨((t - t0 : Nat) : ℚ) / 1000, hc1, ?_, ?_, hc2, hc3, hc4⟩
        · rw [le_div_iff₀ (by norm_num : (0 : ℚ) < 1000)]
          have hq : (120000 : ℚ) ≤ ((t - t0 : Nat) : ℚ) := by
            exact_mod_cast (by omega : 120000 ≤ t - t0)
          linarith
        · rw [div_le_iff₀ (by norm_num : (0 : ℚ) < 1000)]
          have hub : t - t0 ≤ 120100 := by omega
          have hq : ((t - t0 : Nat) : ℚ) ≤ 120100 := by exact_mod_cast hub
          linarith
      · push_neg at hge
        rw [tickTimer_below_cap u t t0 c htimer ht0 (by omega)]
        refine ih t t0 _ ?_ ?_ ?_ ?_ ?_ (by omega) (by omega) hchain' ?_
        · exact htimer
        · exact hmr
        · exact ht0
        · exact hcap
        · exact hup
        · obtain ⟨t', ht'mem, ht'ge⟩ := htrig
          rcases List.mem_cons.mp ht'mem with heq | hmem
          · omega
          · exact ⟨t', hmem, ht'ge⟩

/-- Tick times at an exact 100 ms cadence: `everyHundred k n` is the list
`[k+100, k+200, ..., k+100*n]`. -/
def everyHundred (k : Nat) : Nat → List Nat
  | 0 => []
  | n + 1 => (k + 100) :: everyHundred (k + 100) n

theorem everyHundred_chain (n k : Nat) :
    List.Chain (fun a b => a < b ∧ b ≤ a + 100) k (everyHundred k n) := by
  induction n generalizing k with
  | zero => exact List.Chain.nil
  | succ m ih =>
      exact List.Chain.cons ⟨by omega, le_rfl⟩ (ih (k + 100))

theorem everyHundred_last_mem (n k : Nat) (h : 0 < n) :
    k + 100 * n ∈ everyHundred k n := by
  induction n generalizing k with
  | zero => omega
  | succ m ih =>
      by_cases hm : 0 < m
      · have := ih (k + 100) hm
        rw [everyHundred]
        refine List.mem_cons.mpr (Or.inr ?_)
        have harith : k + 100 * (m + 1) = k + 100 + 100 * m := by ring
        rw [harith]
        exact this
      · have hm0 : m = 0 := by omega
        subst hm0
        simp [everyHundred]

/-- C1: after a successful start at time `t0`, with the interval callback
firing at strictly increasing times no more than one tick interval (100 ms)
apart, as soon as the elapsed duration reaches `MAX_DURATION` (120 s) the
tick itself triggers the stop transition — no user action appears in the
run — the timer is cleared, the capture is released, the upload phase is
entered, and the captured duration `d` satisfies
`MAX_DURATION ≤ d ≤ MAX_DURATION + 0.1`. -/
theorem auto_stop_caps_duration (sup : String → Bool) (s : MediaStream)
    (u : Except String Nat) (t0 : Nat) (ticks : List Nat)
    (hchain : List.Chain (fun a b => a < b ∧ b ≤ a + 100) t0 ticks)
    (htrig : ∃ t ∈ ticks, t0 + 120000 ≤ t) :
    ∃ d : ℚ,
      (runTicks u (ctrlStart sup (Except.ok s) t0 Controller.mount).1
        ticks).captured = [d] ∧
      (MAX_DURATION : ℚ) ≤ d ∧ d ≤ (MAX_DURATION : ℚ) + 1 / 10 ∧
      (runTicks u (ctrlStart sup (Except.ok s) t0 Controller.mount).1
        ticks).timerActive = false ∧
      (runTicks u (ctrlStart sup (Except.ok s) t0 Controller.mount).1
        ticks).world.recorder.mediaRecorder = none ∧
      (runTicks u (ctrlStart sup (Except.ok s) t0 Controller.mount).1
        ticks).uploadCalls = 1 := by
  have h := runTicks_auto_stop u (getSupportedMimeType sup) ticks t0 t0
    (ctrlStart sup (Except.ok s) t0 Controller.mount).1
    (by simp [ctrlStart, startRecording])
    (by simp [ctrlStart, startRecording])
    (by simp [ctrlStart, startRecording])
    (by simp [ctrlStart, startRecording, Controller.mount])
    (by simp [ctrlStart, startRecording, Controller.mount])
    le_rfl (by omega) hchain htrig
  simpa [MAX_DURATION] using h

/-- Witness for C1: start at time 0 and let the timer fire every 100 ms for
1201 ticks (the last at 120100 ms, past the 120 s cap); the run auto-stops
with a captured duration in [120, 120.1]. -/
theorem auto_stop_caps_duration_witness :
    List.Chain (fun a b => a < b ∧ b ≤ a + 100) 0 (everyHundred 0 1201) ∧
    (∃ t ∈ everyHundred 0 1201, 0 + 120000 ≤ t) ∧
    ∃ d : ℚ,
      (runTicks (Except.ok 42)
        (ctrlStart (fun _ => true) (Except.ok { id := 1, tracks := [7] }) 0
          Controller.mount).1 (everyHundred 0 1201)).captured = [d] ∧
      (MAX_DURATION : ℚ) ≤ d ∧ d ≤ (MAX_DURATION : ℚ) + 1 / 10 ∧
      (runTicks (Except.ok 42)
        (ctrlStart (fun _ => true) (Except.ok { id := 1, tracks := [7] }) 0
          Controller.mount).1 (everyHundred 0 1201)).timerActive = false ∧
      (runTicks (Except.ok 42)
        (ctrlStart (fun _ => true) (Except.ok { id := 1, tracks := [7] }) 0
          Controller.mount).1
        (everyHundred 0 1201)).world.recorder.mediaRecorder = none ∧
      (runTicks (Except.ok 42)
        (ctrlStart (fun _ => true) (Except.ok { id := 1, tracks := [7] }) 0
          Controller.mount).1 (everyHundred 0 1201)).uploadCalls = 1 := by
  have hmem : (0 : Nat) + 100 * 1201 ∈ everyHundred 0 1201 :=
    everyHundred_last_mem 1201 0 (by norm_num)
  refine ⟨everyHundred_chain 1201 0, ⟨0 + 100 * 1201, hmem, by norm_num⟩, ?_⟩
  exact auto_stop_caps_duration (fun _ => true) { id := 1, tracks := [7] }
    (Except.ok 42) 0 (everyHundred 0 1201) (everyHundred_chain 1201 0)
    ⟨0 + 100 * 1201, hmem, by norm_num⟩

/-- C2: stopping a recording whose measured duration is under
`minDurationSeconds` (5 s) leaves the controller in the `error` status with
the too-short message, and `entriesAPI.uploadAudio` is not invoked. -/
theorem stop_too_short_no_upload (uploadResult : Except String Nat)
    (now t0 : Nat) (mt : String) (c : Controller)
    (hmr : c.world.recorder.mediaRecorder =
      some { mimeType := mt, state := RecState.recording })
    (ht0 : c.world.recorder.startTime = some t0)
    (hshort : now - t0 < 5000) :
    (ctrlStop uploadResult now c).status = Status.error ∧
    (ctrlStop uploadResult now c).errorMsg =
      "Recording too short. Please record at least 5 seconds." ∧
    (ctrlStop uploadResult now c).uploadCalls = c.uploadCalls := by
  have hdur : ((now - t0 : Nat) : ℚ) / 1000 < 5 := by
    rw [div_lt_iff₀ (by norm_num : (0 : ℚ) < 1000)]
    have hq : ((now - t0 : Nat) : ℚ) < 5000 := by exact_mod_cast hshort
    linarith
  simp only [ctrlStop, stopRecording, hmr, ht0]
  rw [if_neg (by simp : ¬ (RecState.recording = RecState.inactive))]
  dsimp only
  rw [if_pos hdur]
  exact ⟨rfl, rfl, rfl⟩

/-- Witness for C2: stop after 3 s (start 0, stop at 3000 ms): the status is
`error` with the too-short message and the gateway is not called. -/
theorem stop_too_short_no_upload_witness :
    midCaptureWorld.recorder.mediaRecorder =
      some { mimeType := "audio/webm", state := RecState.recording } ∧
    midCaptureWorld.recorder.startTime = some 0 ∧
    3000 - 0 < 5000 ∧
    ((ctrlStop (Except.ok 42) 3000
        { Controller.mount with
          status := Status.recording
          timerActive := true
          world := midCaptureWorld }).status = Status.error ∧
      (ctrlStop (Except.ok 42) 3000
        { Controller.mount with
          status := Status.recording
          timerActive := true
          world := midCaptureWorld }).errorMsg =
        "Recording too short. Please record at least 5 seconds." ∧
      (ctrlStop (Except.ok 42) 3000
        { Controller.mount with
          status := Status.recording
          timerActive := true
          world := midCaptureWorld }).uploadCalls =
        ({ Controller.mount with
          status := Status.recording
          timerActive := true
          world := midCaptureWorld } : Controller).uploadCalls) :=
  ⟨rfl, rfl, by norm_num,
    stop_too_short_no_upload (Except.ok 42) 3000 0 "audio/webm"
      { Controller.mount with
        status := Status.recording
        timerActive := true
        world := midCaptureWorld } rfl rfl (by norm_num)⟩

/-- Counterexample to C6: with device acquisition failing (message
`Permission denied`) on the mounted page, the run is NOT a direct
`Idle → Error` transition: the status sequence set by the handler contains
`recording` (it is set before acquisition is awaited), and the error shown
is a fixed permissions message, not the capture error message. -/
theorem start_failure_not_direct_to_error :
    Status.recording ∈
      (ctrlStart (fun _ => true) (Except.error "Permission denied") 0
        Controller.mount).2 ∧
    (ctrlStart (fun _ => true) (Except.error "Permission denied") 0
        Controller.mount).1.errorMsg ≠
      "Failed to access microphone: Permission denied" := by
  constructor
  · simp [ctrlStart, startRecording]
  · simp [ctrlStart, startRecording]

/-- C6 amended: when device acquisition fails during the start transition,
the controller sets status `recording` before awaiting acquisition, then
transitions to `error` carrying the fixed message `Failed to access
microphone. Please check your permissions.`; the status sequence of the run
is `[recording, error]` and the recorder's resources are cleaned up. -/
theorem start_failure_ends_in_error (sup : String → Bool) (msg : String)
    (now : Nat) (c : Controller) :
    (ctrlStart sup (Except.error msg) now c).2 =
      [Status.recording, Status.error] ∧
    (ctrlStart sup (Except.error msg) now c).1.status = Status.error ∧
    (ctrlStart sup (Except.error msg) now c).1.errorMsg =
      "Failed to access microphone. Please check your permissions." ∧
    (ctrlStart sup (Except.error msg) now c).1.world.recorder.stream = none := by
  refine ⟨rfl, rfl, rfl, ?_⟩
  simp [ctrlStart, startRecording, cleanup]

/-- A canvas path command issued by the visualizer's `draw`
(AudioVisualizer.tsx). Coordinates are exact rationals. -/
inductive DrawOp where
  | moveTo (x y : ℚ)
  | lineTo (x y : ℚ)
deriving DecidableEq

/-- The polyline drawn by one recording frame of `draw`
(AudioVisualizer.tsx): for sample `i` of the analyser buffer,
`v = dataArray[i] / 128`, `y = v * h / 2`, `x = i * sliceWidth` with
`sliceWidth = w / bufferLength`; the first point is a `moveTo`, the rest are
`lineTo`, and the path ends with `lineTo w (h / 2)`. -/
def waveformOps (w h : ℚ) (samples : List Nat) : List DrawOp :=
  let sliceWidth := w / (samples.length : ℚ)
  (samples.enum.map (fun p =>
    let y : ℚ := ((p.2 : ℚ) / 128) * h / 2
    let x : ℚ := sliceWidth * (p.1 : ℚ)
    if p.1 = 0 then DrawOp.moveTo x y else DrawOp.lineTo x y)) ++
    [DrawOp.lineTo w (h / 2)]

/-- One run of the `AudioVisualizer` effect body followed by its first
`draw` call (AudioVisualizer.tsx). Inputs: whether a stream prop is present,
the `isRecording` prop, the canvas CSS width and height, and the analyser's
current time-domain samples. Output: the path commands drawn, and whether a
further animation frame was scheduled. With no stream the effect returns
before drawing anything; with a stream but not recording, `draw` strokes the
centered horizontal line and returns without scheduling; while recording,
`draw` schedules the next frame and strokes one waveform polyline. -/
def visualizerEffect (hasStream isRecording : Bool) (w h : ℚ)
    (samples : List Nat) : List DrawOp × Bool :=
  if !hasStream then ([], false)
  else if !isRecording then
    ([DrawOp.moveTo 0 (h / 2), DrawOp.lineTo w (h / 2)], false)
  else (waveformOps w h samples, true)

/-- Counterexample to C9: with the stream absent (and not recording), the
renderer draws nothing at all — in particular no centered horizontal line —
on a 100 × 128 canvas. (The claim asserts a static centered line is drawn
whenever the stream is absent or recording is off.) -/
theorem visualizer_no_stream_draws_nothing :
    (visualizerEffect false false 100 128 []).1 = [] ∧
    DrawOp.lineTo 100 64 ∉ (visualizerEffect false false 100 128 []).1 := by
  constructor
  · rfl
  · simp [visualizerEffect]

/-- C9 amended: when no redraw is wanted the renderer schedules no further
frame; the static centered horizontal line is drawn exactly when a stream is
present but recording is off, while with no stream the effect draws nothing
at all. -/
theorem visualizer_idle_behavior (isRec : Bool) (w h : ℚ)
    (samples : List Nat) :
    visualizerEffect false isRec w h samples = ([], false) ∧
    visualizerEffect true false w h samples =
      ([DrawOp.moveTo 0 (h / 2), DrawOp.lineTo w (h / 2)], false) := by
  constructor
  · rfl
  · rfl

end MindSpeak
